import Mathlib

/-!
Verification of the edalize Ise flow and tool backends against their
natural-language specification.

The development shallowly embeds the relevant parts of the code:
* `flowStages` — the stage-list computation of `Ise.__init__` in
  `edalize/flows/ise.py`;
* `classifyFiles`, `iseConfigure` — the file-classification loop and the
  rule accumulation of `Ise.configure` in `edalize/tools/ise.py`;
* `iseBuild` — `Ise.build` in `edalize/tools/ise.py`;
* `EdaCommands` — the command-graph accumulator; its Python source
  (`edalize/utils.py`) is not part of the sources at hand, so it is
  modelled from the specification of the Command Graph Accumulator.

Python exceptions are modelled with `Except`; Python string truthiness of
`logical_name` is modelled as inequality with the empty string.
-/

namespace EdalizeIse

/-- A source-file entry of the EDAM file list.  An absent `logical_name`
is modelled as the empty string (Python falsy). -/
structure SourceFile where
  file_type : String
  name : String
  logical_name : String
deriving Repr, DecidableEq

/-- The slice of an EDAM dictionary that the Ise flow and tool read:
the project name, the file list, the tool options `synth` and `part`
(absent keys modelled by `none`), and the flow option `synth`. -/
structure Edam where
  name : String
  files : List SourceFile
  tool_options_synth : Option String
  tool_options_part : Option String
  flow_options_synth : Option String
deriving Repr, DecidableEq

/-- A stage descriptor of a flow: tool id, successor tool ids, and
per-stage option overrides. -/
abbrev StageDescriptor := String × List String × List (String × String)

/-- The class-level `FLOW` table of the Ise flow
(`edalize/flows/ise.py`, lines 15-18). -/
def defaultFLOW : List StageDescriptor :=
  [("yosys", ["ise"], [("arch", "xilinx"), ("output_format", "edif")]),
   ("ise", [], [])]

/-- The stage list after `Ise.__init__` of the flow
(`edalize/flows/ise.py`, lines 31-35): when
`edam.get("flow_options", {}).get("synth", {})` is not the string
`"yosys"` (also when the keys are absent), the yosys node is removed and
only the `ise` stage remains. -/
def flowStages (flow_options_synth : Option String) : List StageDescriptor :=
  if flow_options_synth ≠ some "yosys" then [("ise", [], [])] else defaultFLOW

/-- One build rule: command, output targets, input dependencies.
Modelled from the spec: `Rule` of the data model (the `EdaCommands`
class of `edalize/utils.py` is not among the sources). -/
structure Rule where
  command : List String
  targets : List String
  dependencies : List String
deriving Repr, DecidableEq

/-- Errors of the command-graph accumulator, from the spec's error
taxonomy. -/
inductive EdaError where
  | conflictingRule (target : String)
  | defaultTargetAlreadySet
  | graphFinalized
deriving Repr, DecidableEq

/-- Modelled from the spec: the `CommandGraph` state of the Command
Graph Accumulator (`EdaCommands` of `edalize/utils.py`, not among the
sources): rules in insertion order, the optional default target, and
the finalized flag of the `Open`/`Finalized` state machine. -/
structure EdaCommands where
  rules : List Rule
  default_target : Option String
  finalized : Bool
deriving Repr, DecidableEq

/-- A fresh, open command graph. -/
def emptyCommands : EdaCommands := ⟨[], none, false⟩

/-- First previously added rule that has `t` among its targets. -/
def findTargetRule : List Rule → String → Option Rule
  | [], _ => none
  | r :: rs, t => if t ∈ r.targets then some r else findTargetRule rs t

/-- Modelled from the spec: the constraint check on `add` — the first
identifier among the new targets that already appears as a target of a
previously added rule whose command or dependencies differ. -/
def checkConflicts (rules : List Rule) (command dependencies : List String) :
    List String → Option String
  | [] => none
  | t :: ts =>
    match findTargetRule rules t with
    | some r =>
      if r.command = command ∧ r.dependencies = dependencies then
        checkConflicts rules command dependencies ts
      else some t
    | none => checkConflicts rules command dependencies ts

/-- Modelled from the spec: `add(command, targets, dependencies)` of the
Command Graph Accumulator.  Fails with `GraphFinalized` on a finalized
graph and with `ConflictingRule` on a duplicated target with a different
recipe; re-adding an identical rule is idempotent. -/
def EdaCommands.add (g : EdaCommands) (command targets dependencies : List String) :
    Except EdaError EdaCommands :=
  if g.finalized then .error .graphFinalized
  else
    match checkConflicts g.rules command dependencies targets with
    | some t => .error (.conflictingRule t)
    | none =>
      if (⟨command, targets, dependencies⟩ : Rule) ∈ g.rules then .ok g
      else .ok { g with
        rules := g.rules ++ [⟨command, targets, dependencies⟩] }

/-- Modelled from the spec: `set_default_target` — a final decision;
setting a different value twice fails with `DefaultTargetAlreadySet`,
re-setting the identical value succeeds. -/
def EdaCommands.set_default_target (g : EdaCommands) (t : String) :
    Except EdaError EdaCommands :=
  match g.default_target with
  | some t0 => if t0 = t then .ok g else .error .defaultTargetAlreadySet
  | none => .ok { g with default_target := some t }

/-- Modelled from the spec: the textual serialization of one rule
(targets, dependencies, command), as a Makefile-like document line
group. -/
def serializeRule (r : Rule) : String :=
  String.intercalate " " r.targets ++ ": " ++
    String.intercalate " " r.dependencies ++ "\n\t" ++
    String.intercalate " " r.command ++ "\n"

/-- Modelled from the spec: `write` — deterministic serialization of the
rules in insertion order plus the default goal; the graph becomes
`Finalized`. -/
def EdaCommands.write (g : EdaCommands) : String × EdaCommands :=
  ("all: " ++ g.default_target.getD "" ++ "\n\n" ++
     String.intercalate "\n" (g.rules.map serializeRule),
   { g with finalized := true })

/-- Python exceptions observable from `Ise.configure`. -/
inductive PyError where
  | nameError (name : String)
  | runtimeError (msg : String)
  | edaError (e : EdaError)
deriving Repr, DecidableEq

/-- Python `str.startswith`. -/
def pyStartswith (s pre : String) : Bool := pre.data.isPrefixOf s.data

/-- The file-classification loop of `Ise.configure`
(`edalize/tools/ise.py`, lines 96-125), restricted to its observable
effects: the accumulated `edif_files` (in file-list order) and the
exceptions it raises.  A `systemVerilogSource` file raises
`RuntimeError`; a `vhdlSource` file with a truthy `logical_name` reads
the Python name `libraries`, which is never bound in the function, so
that read raises `NameError`.  The `src_files`/`incdirs` bookkeeping is
not modelled (`_add_include_dir` lives in `Edatool`, not among the
sources) — no claim observes it. -/
def classifyFiles : List SourceFile → Except PyError (List String)
  | [] => .ok []
  | f :: fs =>
    if pyStartswith f.file_type "verilogSource" then classifyFiles fs
    else if pyStartswith f.file_type "systemVerilogSource" then
      .error (.runtimeError "ISE cannot synthesis systemverilog. Please use synth=yosys")
    else if pyStartswith f.file_type "vhdlSource" then
      if f.logical_name ≠ "" then .error (.nameError "libraries")
      else classifyFiles fs
    else if f.file_type = "edif" then
      (classifyFiles fs).map (fun es => f.name :: es)
    else classifyFiles fs

/-- Names of the files `Ise.configure` itself writes: the rendered
templates and the Makefile (`edalize/tools/ise.py`, lines 140, 149, 157,
207, 209). -/
def writtenFiles (name : String) : List String :=
  [name ++ ".tcl", name ++ "_run.tcl", name ++ "_synth.tcl", "Makefile",
   name ++ "_pgm.tcl"]

/-- The Makefile-rule accumulation of `Ise.configure`
(`edalize/tools/ise.py`, lines 160-208): starting from a fresh
`EdaCommands`, add the project-file rule, the optional synthesis rule,
the virtual `synth` rule, the bitstream rule, the `build-gui` rule and
the `pgm` rule, set the default target to the bitstream and write the
Makefile (which finalizes the graph). -/
def iseMakeCommands (name : String) (edif_files : List String)
    (synth part : String) : Except EdaError EdaCommands := do
  let commands : EdaCommands := emptyCommands
  let ise_command := ["xtclsh"]
  let project_file := name ++ ".xise"
  let tcl_file := [name ++ ".tcl"]
  let commands ← commands.add (ise_command ++ tcl_file) [project_file]
    (tcl_file ++ edif_files)
  let step ←
    if synth = "ise" then
      let depends := [name ++ "_synth.tcl", project_file]
      let targets := [name ++ "/__synthesis_is_complete__"]
      (commands.add (ise_command ++ depends) targets depends).map
        (fun g => (g, targets))
    else pure (commands, edif_files)
  let commands := step.1
  let targets := step.2
  let commands ← commands.add [] ["synth"] targets
  let run_tcl := name ++ "_run.tcl"
  let depends := [run_tcl, project_file]
  let bitstream := name ++ ".bit"
  let commands ← commands.add (ise_command ++ depends) [bitstream] depends
  let commands ← commands.add ["ise", project_file] ["build-gui"] [project_file]
  let pgm_depends := [name ++ "_pgm.tcl", bitstream]
  let command := ["ise", "-quiet", "-nolog", "-notrace", "-mode", "batch",
    "-source", name ++ "_pgm.tcl", "-tclargs"] ++
    (if part = "" then [] else [part]) ++ [bitstream]
  let commands ← commands.add command ["pgm"] pgm_depends
  let commands ← commands.set_default_target bitstream
  pure (commands.write).2

/-- `Ise.configure` of the tool (`edalize/tools/ise.py`, lines 79-209):
classify the files, then accumulate the Makefile rules, with
`synth = tool_options.get("synth", "ise")` and
`part = tool_options.get("part", "")`.  Returns the final command graph
together with the names of the files written; an exception leaves
nothing written (all rendering happens after the classification
loop). -/
def iseConfigure (e : Edam) : Except PyError (EdaCommands × List String) :=
  match classifyFiles e.files with
  | .error err => .error err
  | .ok edif_files =>
    match iseMakeCommands e.name edif_files (e.tool_options_synth.getD "ise")
        (e.tool_options_part.getD "") with
    | .error err => .error (.edaError err)
    | .ok g => .ok (g, writtenFiles e.name)

/-- The rule list `Ise.configure` accumulates, in insertion order, as a
function of the project name, the collected edif files, and the `synth`
and `part` tool options. -/
def iseRules (name : String) (edif_files : List String) (synth part : String) :
    List Rule :=
  let project_file := name ++ ".xise"
  let tcl_file := [name ++ ".tcl"]
  let markers := [name ++ "/__synthesis_is_complete__"]
  let bitstream := name ++ ".bit"
  [⟨["xtclsh"] ++ tcl_file, [project_file], tcl_file ++ edif_files⟩] ++
  (if synth = "ise" then
    [⟨["xtclsh", name ++ "_synth.tcl", project_file], markers,
      [name ++ "_synth.tcl", project_file]⟩]
   else []) ++
  [⟨[], ["synth"], if synth = "ise" then markers else edif_files⟩,
   ⟨["xtclsh", name ++ "_run.tcl", project_file], [bitstream],
     [name ++ "_run.tcl", project_file]⟩,
   ⟨["ise", project_file], ["build-gui"], [project_file]⟩,
   ⟨["ise", "-quiet", "-nolog", "-notrace", "-mode", "batch", "-source",
       name ++ "_pgm.tcl", "-tclargs"] ++
     (if part = "" then [] else [part]) ++ [bitstream], ["pgm"],
     [name ++ "_pgm.tcl", bitstream]⟩]

/-- `Ise.configure_tools` of the flow (`edalize/flows/ise.py`, lines
40-43): after the superclass has configured all tools (the `Edaflow`
superclass is not among the sources, so the accumulated graph it leaves
behind is an arbitrary parameter), the flow sets the default target to
`name + ".bit"`. -/
def flowConfigureTools (name : String) (g : EdaCommands) : Except EdaError EdaCommands :=
  g.set_default_target (name ++ ".bit")

/-- The local `args` accumulation inside `Ise.build`
(`edalize/tools/ise.py`, lines 213-218). -/
def buildLocalArgs (tool_options_pnr : Option String) : List String :=
  match tool_options_pnr with
  | some "ise" => []
  | some "none" => ["synth"]
  | _ => []

/-- `Ise.build` of the tool (`edalize/tools/ise.py`, lines 211-219): the
local `args` is computed but the returned triple uses `self.args`
unchanged. -/
def iseBuild (tool_options_pnr : Option String) (self_args : List String)
    (work_root : String) : String × List String × String :=
  let _args := buildLocalArgs tool_options_pnr
  ("make", self_args, work_root)

/-- A concrete edif input file, used by the concrete example edams. -/
def fileEdif : SourceFile := ⟨"edif", "t.edif", ""⟩

/-- A concrete edam with the `synth` tool option absent (defaulting to
"ise"). -/
def eEdif : Edam := ⟨"top", [fileEdif], none, none, none⟩

/-- A concrete edam with the `synth` tool option set to "none". -/
def eNone : Edam := ⟨"top", [fileEdif], some "none", none, none⟩

/-- A concrete edam whose file list has a systemVerilog file before a
VHDL file with a truthy logical_name. -/
def eSvFirst : Edam :=
  ⟨"top", [⟨"systemVerilogSource", "s.sv", ""⟩, ⟨"vhdlSource", "v.vhd", "mylib"⟩],
   none, none, none⟩

/-- A concrete edam whose file list has a VHDL file with a truthy
logical_name before a systemVerilog file. -/
def eVhdlFirst : Edam :=
  ⟨"top", [⟨"vhdlSource", "v.vhd", "mylib"⟩, ⟨"systemVerilogSource", "s.sv", ""⟩],
   none, none, none⟩

/-- Reachability by following rule dependencies from the default
target of a command graph: the default target is reachable, and every
dependency of a rule one of whose targets is reachable is
reachable. -/
inductive Reachable (g : EdaCommands) : String → Prop where
  | base (t : String) : g.default_target = some t → Reachable g t
  | step (x y : String) (r : Rule) : Reachable g x → r ∈ g.rules →
      x ∈ r.targets → y ∈ r.dependencies → Reachable g y

/-- An identifier resolves when it is a target of some accumulated
rule, a file `configure` itself writes, or the name of a supplied
source file. -/
def resolvesIn (g : EdaCommands) (e : Edam) (x : String) : Prop :=
  (∃ r ∈ g.rules, x ∈ r.targets) ∨ x ∈ writtenFiles e.name ∨
    x ∈ e.files.map SourceFile.name

/-! Helper lemmas: distinguishing the target identifiers `configure`
uses, for an arbitrary project name, by their last character. -/

theorem lastChar_append (n s : String) (h : s.data ≠ []) :
    (n ++ s).data.getLast? = s.data.getLast? := by
  rw [String.data_append]; exact List.getLast?_append_of_ne_nil _ h

theorem ne_of_lastChar {a b : String} (h : a.data.getLast? ≠ b.data.getLast?) :
    a ≠ b :=
  fun he => h (by rw [he])

theorem marker_ne_xise (n : String) :
    n ++ "/__synthesis_is_complete__" ≠ n ++ ".xise" :=
  ne_of_lastChar (by
    rw [lastChar_append _ _ (by decide), lastChar_append _ _ (by decide)]; decide)

theorem synth_ne_xise (n : String) : ("synth" : String) ≠ n ++ ".xise" :=
  ne_of_lastChar (by rw [lastChar_append _ _ (by decide)]; decide)

theorem synth_ne_marker (n : String) :
    ("synth" : String) ≠ n ++ "/__synthesis_is_complete__" :=
  ne_of_lastChar (by rw [lastChar_append _ _ (by decide)]; decide)

theorem bit_ne_xise (n : String) : n ++ ".bit" ≠ n ++ ".xise" :=
  ne_of_lastChar (by
    rw [lastChar_append _ _ (by decide), lastChar_append _ _ (by decide)]; decide)

theorem bit_ne_marker (n : String) :
    n ++ ".bit" ≠ n ++ "/__synthesis_is_complete__" :=
  ne_of_lastChar (by
    rw [lastChar_append _ _ (by decide), lastChar_append _ _ (by decide)]; decide)

theorem bit_ne_synth (n : String) : n ++ ".bit" ≠ "synth" :=
  ne_of_lastChar (by rw [lastChar_append _ _ (by decide)]; decide)

theorem gui_ne_xise (n : String) : ("build-gui" : String) ≠ n ++ ".xise" :=
  ne_of_lastChar (by rw [lastChar_append _ _ (by decide)]; decide)

theorem gui_ne_marker (n : String) :
    ("build-gui" : String) ≠ n ++ "/__synthesis_is_complete__" :=
  ne_of_lastChar (by rw [lastChar_append _ _ (by decide)]; decide)

theorem gui_ne_synth : ("build-gui" : String) ≠ "synth" := by decide

theorem gui_ne_bit (n : String) : ("build-gui" : String) ≠ n ++ ".bit" :=
  ne_of_lastChar (by rw [lastChar_append _ _ (by decide)]; decide)

theorem pgm_ne_xise (n : String) : ("pgm" : String) ≠ n ++ ".xise" :=
  ne_of_lastChar (by rw [lastChar_append _ _ (by decide)]; decide)

theorem pgm_ne_marker (n : String) :
    ("pgm" : String) ≠ n ++ "/__synthesis_is_complete__" :=
  ne_of_lastChar (by rw [lastChar_append _ _ (by decide)]; decide)

theorem pgm_ne_synth : ("pgm" : String) ≠ "synth" := by decide

theorem pgm_ne_bit (n : String) : ("pgm" : String) ≠ n ++ ".bit" :=
  ne_of_lastChar (by rw [lastChar_append _ _ (by decide)]; decide)

theorem pgm_ne_gui : ("pgm" : String) ≠ "build-gui" := by decide

/-- Master computation lemma: the rule accumulation of `configure`
succeeds on every input and yields exactly the `iseRules` list, the
bitstream as default target, and a finalized graph. -/
theorem iseMakeCommands_eq (n : String) (efs : List String) (synth part : String) :
    iseMakeCommands n efs synth part =
      .ok ⟨iseRules n efs synth part, some (n ++ ".bit"), true⟩ := by
  by_cases hs : synth = "ise" <;>
    simp [iseMakeCommands, iseRules, EdaCommands.add, EdaCommands.set_default_target,
      EdaCommands.write, emptyCommands, checkConflicts, findTargetRule, hs,
      bind, Except.bind, pure, Except.pure, Functor.map, Except.map,
      marker_ne_xise, synth_ne_xise, synth_ne_marker, bit_ne_xise, bit_ne_marker,
      bit_ne_synth, gui_ne_xise, gui_ne_marker, gui_ne_synth, gui_ne_bit,
      pgm_ne_xise, pgm_ne_marker, pgm_ne_synth, pgm_ne_bit, pgm_ne_gui]

/-- Master lemma for `iseConfigure`: whenever the file-classification
loop raises no exception, `configure` returns the `iseRules` graph with
the bitstream default target, plus the list of written files. -/
theorem iseConfigure_eq (e : Edam) (efs : List String)
    (h : classifyFiles e.files = .ok efs) :
    iseConfigure e =
      .ok (⟨iseRules e.name efs (e.tool_options_synth.getD "ise")
          (e.tool_options_part.getD ""), some (e.name ++ ".bit"), true⟩,
        writtenFiles e.name) := by
  simp [iseConfigure, h, iseMakeCommands_eq]

/-- Inversion for a successful `iseConfigure`: the classification
succeeded and the result is the `iseRules` graph. -/
theorem iseConfigure_ok_inv (e : Edam) (g : EdaCommands) (ws : List String)
    (h : iseConfigure e = .ok (g, ws)) :
    ∃ efs, classifyFiles e.files = .ok efs ∧
      g = ⟨iseRules e.name efs (e.tool_options_synth.getD "ise")
          (e.tool_options_part.getD ""), some (e.name ++ ".bit"), true⟩ ∧
      ws = writtenFiles e.name := by
  cases hc : classifyFiles e.files with
  | error err => simp [iseConfigure, hc] at h
  | ok efs =>
    refine ⟨efs, rfl, ?_⟩
    have h2 := (iseConfigure_eq e efs hc).symm.trans h
    simp only [Except.ok.injEq, Prod.mk.injEq] at h2
    exact ⟨h2.1.symm, h2.2.symm⟩

/-- On a successful classification the collected edif files are exactly
the names of the input files with file_type `"edif"`, in order. -/
theorem classify_edif_eq (fs : List SourceFile) (efs : List String)
    (h : classifyFiles fs = .ok efs) :
    efs = (fs.filter (fun f => f.file_type == "edif")).map SourceFile.name := by
  induction fs generalizing efs with
  | nil =>
    simp only [classifyFiles, Except.ok.injEq] at h
    simp [← h]
  | cons f fs ih =>
    by_cases h1 : pyStartswith f.file_type "verilogSource"
    · have hne : (f.file_type == "edif") = false := by
        refine Bool.eq_false_iff.mpr ?_
        intro he
        rw [eq_of_beq he] at h1
        exact absurd h1 (by decide)
      simp only [classifyFiles, h1, if_true] at h
      simp [hne, ih efs h]
    · by_cases h2 : pyStartswith f.file_type "systemVerilogSource"
      · simp [classifyFiles, h1, h2] at h
      · by_cases h3 : pyStartswith f.file_type "vhdlSource"
        · have hne : (f.file_type == "edif") = false := by
            refine Bool.eq_false_iff.mpr ?_
            intro he
            rw [eq_of_beq he] at h3
            exact absurd h3 (by decide)
          by_cases h4 : f.logical_name = ""
          · simp only [classifyFiles, h1, h2, h3, if_true, if_false, h4,
              Bool.false_eq_true, ne_eq, not_true_eq_false] at h
            simp [hne, ih efs h]
          · simp [classifyFiles, h1, h2, h3, h4] at h
        · by_cases h5 : f.file_type = "edif"
          · have e1 : pyStartswith "edif" "verilogSource" = false := by decide
            have e2 : pyStartswith "edif" "systemVerilogSource" = false := by decide
            have e3 : pyStartswith "edif" "vhdlSource" = false := by decide
            simp only [classifyFiles, h5, e1, e2, e3, Bool.false_eq_true,
              if_false, if_true] at h
            cases hc : classifyFiles fs with
            | error err => rw [hc] at h; simp [Except.map] at h
            | ok efs' =>
              rw [hc] at h
              simp only [Except.map, Except.ok.injEq] at h
              simp [← h, h5, ih efs' hc]
          · have hne : (f.file_type == "edif") = false := by
              refine Bool.eq_false_iff.mpr ?_
              intro he
              exact h5 (eq_of_beq he)
            simp only [classifyFiles, h1, h2, h3, h5, Bool.false_eq_true,
              if_false] at h
            simp [hne, ih efs h]

/-- C1: stage elision in the Ise flow — when the flow option `synth` is
anything other than the string "yosys" (also when absent) the stage
list is the single descriptor `("ise", [], {})`, with no error; when it
is "yosys" the stage list is the full two-stage FLOW table. -/
theorem stage_elision_C1 (fos : Option String) :
    (fos ≠ some "yosys" → flowStages fos = [("ise", [], [])]) ∧
    (fos = some "yosys" →
      flowStages fos =
        [("yosys", ["ise"], [("arch", "xilinx"), ("output_format", "edif")]),
         ("ise", [], [])]) := by
  constructor
  · intro h; simp [flowStages, h]
  · intro h; simp [flowStages, h, defaultFLOW]

/-- Witness for C1 at the concrete flow options `none`, `some "none"`
and `some "yosys"`. -/
theorem stage_elision_C1_witness :
    flowStages none = [("ise", [], [])] ∧
    flowStages (some "none") = [("ise", [], [])] ∧
    flowStages (some "yosys") =
      [("yosys", ["ise"], [("arch", "xilinx"), ("output_format", "edif")]),
       ("ise", [], [])] :=
  ⟨(stage_elision_C1 none).1 (by decide),
   (stage_elision_C1 (some "none")).1 (by decide),
   (stage_elision_C1 (some "yosys")).2 rfl⟩

/-- C2: default-target convention — the Ise tool's `configure` leaves
the accumulator's default target at `name + ".bit"`, and the flow's
`configure_tools`, whenever it succeeds on the graph the tools left
behind, leaves the flow graph's default target at `name + ".bit"`. -/
theorem default_target_C2 (e : Edam) (g g0 g1 : EdaCommands) (ws : List String)
    (h : iseConfigure e = .ok (g, ws))
    (hf : flowConfigureTools e.name g0 = .ok g1) :
    g.default_target = some (e.name ++ ".bit") ∧
    g1.default_target = some (e.name ++ ".bit") := by
  obtain ⟨efs, -, hg, -⟩ := iseConfigure_ok_inv e g ws h
  constructor
  · rw [hg]
  · unfold flowConfigureTools EdaCommands.set_default_target at hf
    obtain ⟨rs0, dt0, fin0⟩ := g0
    cases dt0 with
    | none =>
      simp only [Except.ok.injEq] at hf
      rw [← hf]
    | some t0 =>
      by_cases ht : t0 = e.name ++ ".bit"
      · simp only [ht, if_true, eq_self_iff_true, Except.ok.injEq] at hf
        rw [← hf]
      · simp only [if_neg ht] at hf
        exact absurd hf (by simp)

/-- Witness for C2 at a concrete edam and a concrete prior graph. -/
theorem default_target_C2_witness :
    (⟨iseRules "top" ["t.edif"] "ise" "", some "top.bit", true⟩ :
        EdaCommands).default_target = some ("top" ++ ".bit") ∧
    (⟨[], some "top.bit", false⟩ : EdaCommands).default_target =
      some ("top" ++ ".bit") :=
  default_target_C2 ⟨"top", [⟨"edif", "t.edif", ""⟩], none, none, none⟩
    ⟨iseRules "top" ["t.edif"] "ise" "", some "top.bit", true⟩
    ⟨[], none, false⟩ ⟨[], some "top.bit", false⟩
    (writtenFiles "top") rfl rfl

/-- C3: synthesis-branch rule contribution — when the tool option
`synth` is "ise" or absent, `configure` adds the synthesis-marker rule
(target `<name>/__synthesis_is_complete__`, command
`xtclsh <name>_synth.tcl <name>.xise`, the same two files as
dependencies) and the virtual `synth` target depends on the marker;
for any other `synth` value no rule with the marker target exists and
the `synth` target's dependencies are exactly the names of the input
files with file_type "edif", which are also dependencies of the
project-file rule. -/
theorem synth_branch_C3 (e : Edam) (g : EdaCommands) (ws efs : List String)
    (hc : classifyFiles e.files = .ok efs)
    (h : iseConfigure e = .ok (g, ws)) :
    ((e.tool_options_synth = none ∨ e.tool_options_synth = some "ise") →
      Rule.mk ["xtclsh", e.name ++ "_synth.tcl", e.name ++ ".xise"]
        [e.name ++ "/__synthesis_is_complete__"]
        [e.name ++ "_synth.tcl", e.name ++ ".xise"] ∈ g.rules ∧
      Rule.mk [] ["synth"] [e.name ++ "/__synthesis_is_complete__"] ∈ g.rules) ∧
    (∀ s, e.tool_options_synth = some s → s ≠ "ise" →
      (¬ ∃ r ∈ g.rules, (e.name ++ "/__synthesis_is_complete__") ∈ r.targets) ∧
      Rule.mk [] ["synth"] efs ∈ g.rules ∧
      efs = (e.files.filter (fun f => f.file_type == "edif")).map SourceFile.name ∧
      Rule.mk ["xtclsh", e.name ++ ".tcl"] [e.name ++ ".xise"]
        ((e.name ++ ".tcl") :: efs) ∈ g.rules) := by
  obtain ⟨efs', hc', hg, -⟩ := iseConfigure_ok_inv e g ws h
  rw [hc'] at hc
  injection hc with hee
  subst hee
  constructor
  · intro hsy
    have hs : e.tool_options_synth.getD "ise" = "ise" := by
      rcases hsy with h0 | h0 <;> rw [h0] <;> rfl
    rw [hg]
    constructor <;> simp [iseRules, hs]
  · intro s hs0 hne
    have hs : e.tool_options_synth.getD "ise" = s := by rw [hs0]; rfl
    rw [hg]
    refine ⟨?_, ?_, classify_edif_eq e.files _ hc', ?_⟩
    · simp [iseRules, hs, hne, marker_ne_xise, (synth_ne_marker e.name).symm,
        (bit_ne_marker e.name).symm, (gui_ne_marker e.name).symm,
        (pgm_ne_marker e.name).symm]
    · simp [iseRules, hs, hne]
    · simp [iseRules, hs, hne]

/-- Witness for C3 at concrete edams for both branches. -/
theorem synth_branch_C3_witness :
    (Rule.mk ["xtclsh", "top" ++ "_synth.tcl", "top" ++ ".xise"]
        ["top" ++ "/__synthesis_is_complete__"]
        ["top" ++ "_synth.tcl", "top" ++ ".xise"] ∈
      iseRules "top" ["t.edif"] "ise" "") ∧
    (Rule.mk [] ["synth"] ["t.edif"] ∈ iseRules "top" ["t.edif"] "none" "") :=
  ⟨((synth_branch_C3 eEdif
      ⟨iseRules "top" ["t.edif"] "ise" "", some ("top" ++ ".bit"), true⟩
      (writtenFiles "top") ["t.edif"] rfl rfl).1 (Or.inl rfl)).1,
   ((synth_branch_C3 eNone
      ⟨iseRules "top" ["t.edif"] "none" "", some ("top" ++ ".bit"), true⟩
      (writtenFiles "top") ["t.edif"] rfl rfl).2 "none" rfl
      (by decide)).2.1⟩

/-- C5: the virtual targets `synth`, `build-gui` and `pgm` are each
contributed as real rules, recorded in the accumulated rule set: a rule
whose only target is `synth` with empty command, a rule whose only
target is `build-gui` with command `ise <name>.xise` and dependency
`<name>.xise`, and a rule whose only target is `pgm` depending on
`<name>_pgm.tcl` and the bitstream. -/
theorem virtual_targets_C5 (e : Edam) (g : EdaCommands) (ws : List String)
    (h : iseConfigure e = .ok (g, ws)) :
    (∃ ds, Rule.mk [] ["synth"] ds ∈ g.rules) ∧
    Rule.mk ["ise", e.name ++ ".xise"] ["build-gui"] [e.name ++ ".xise"] ∈ g.rules ∧
    (∃ cmd, Rule.mk cmd ["pgm"] [e.name ++ "_pgm.tcl", e.name ++ ".bit"] ∈ g.rules) := by
  obtain ⟨efs, -, hg, -⟩ := iseConfigure_ok_inv e g ws h
  rw [hg]
  by_cases hs : e.tool_options_synth.getD "ise" = "ise"
  · exact ⟨⟨[e.name ++ "/__synthesis_is_complete__"], by simp [iseRules, hs]⟩,
      by simp [iseRules, hs],
      ⟨["ise", "-quiet", "-nolog", "-notrace", "-mode", "batch", "-source",
          e.name ++ "_pgm.tcl", "-tclargs"] ++
        (if e.tool_options_part.getD "" = "" then []
         else [e.tool_options_part.getD ""]) ++ [e.name ++ ".bit"],
       by simp [iseRules, hs]⟩⟩
  · exact ⟨⟨efs, by simp [iseRules, hs]⟩,
      by simp [iseRules, hs],
      ⟨["ise", "-quiet", "-nolog", "-notrace", "-mode", "batch", "-source",
          e.name ++ "_pgm.tcl", "-tclargs"] ++
        (if e.tool_options_part.getD "" = "" then []
         else [e.tool_options_part.getD ""]) ++ [e.name ++ ".bit"],
       by simp [iseRules, hs]⟩⟩

/-- Witness for C5 at a concrete edam. -/
theorem virtual_targets_C5_witness :
    (∃ ds, Rule.mk [] ["synth"] ds ∈ iseRules "top" ["t.edif"] "ise" "") ∧
    Rule.mk ["ise", "top" ++ ".xise"] ["build-gui"] ["top" ++ ".xise"] ∈
      iseRules "top" ["t.edif"] "ise" "" ∧
    (∃ cmd, Rule.mk cmd ["pgm"] ["top" ++ "_pgm.tcl", "top" ++ ".bit"] ∈
      iseRules "top" ["t.edif"] "ise" "") :=
  virtual_targets_C5 eEdif
    ⟨iseRules "top" ["t.edif"] "ise" "", some ("top" ++ ".bit"), true⟩
    (writtenFiles "top") rfl

/-- C7: deterministic serialization — the rules `configure` accumulates
are the fixed insertion-order list `iseRules`, a function only of the
edam's name, collected edif files and the `synth`/`part` options; and
writing the same finalized graph twice yields byte-identical output. -/
theorem deterministic_serialization_C7 (e : Edam) (g : EdaCommands)
    (ws efs : List String) (hc : classifyFiles e.files = .ok efs)
    (h : iseConfigure e = .ok (g, ws)) :
    g.rules = iseRules e.name efs (e.tool_options_synth.getD "ise")
        (e.tool_options_part.getD "") ∧
    ((g.write).2.write).1 = (g.write).1 := by
  obtain ⟨efs', hc', hg, -⟩ := iseConfigure_ok_inv e g ws h
  rw [hc'] at hc
  injection hc with hee
  subst hee
  exact ⟨by rw [hg], by simp [EdaCommands.write]⟩

/-- Witness for C7 at a concrete edam. -/
theorem deterministic_serialization_C7_witness :
    (⟨iseRules "top" ["t.edif"] "ise" "", some ("top" ++ ".bit"), true⟩ :
        EdaCommands).rules = iseRules "top" ["t.edif"] "ise" "" ∧
    ((EdaCommands.write (EdaCommands.write
        ⟨iseRules "top" ["t.edif"] "ise" "", some ("top" ++ ".bit"), true⟩).2).1 =
      (EdaCommands.write
        ⟨iseRules "top" ["t.edif"] "ise" "", some ("top" ++ ".bit"), true⟩).1) :=
  deterministic_serialization_C7 eEdif
    ⟨iseRules "top" ["t.edif"] "ise" "", some ("top" ++ ".bit"), true⟩
    (writtenFiles "top") ["t.edif"] rfl rfl

/-- C4: no dangling dependency from the default target — for every
edam whose `synth` tool option is unset or "ise", every identifier
reachable by following dependencies from the default target
`<name>.bit` resolves to a rule's target, a file `configure` itself
writes, or a supplied source file. -/
theorem no_dangling_C4 (e : Edam) (g : EdaCommands) (ws : List String)
    (hsy : e.tool_options_synth = none ∨ e.tool_options_synth = some "ise")
    (h : iseConfigure e = .ok (g, ws)) :
    ∀ x, Reachable g x → resolvesIn g e x := by
  obtain ⟨efs, hc, hg, -⟩ := iseConfigure_ok_inv e g ws h
  have hs : e.tool_options_synth.getD "ise" = "ise" := by
    rcases hsy with h0 | h0 <;> rw [h0] <;> rfl
  have hefs : ∀ y ∈ efs, y ∈ e.files.map SourceFile.name := by
    intro y hy
    rw [classify_edif_eq e.files efs hc] at hy
    obtain ⟨f, hf, rfl⟩ := List.mem_map.mp hy
    exact List.mem_map.mpr ⟨f, List.mem_of_mem_filter hf, rfl⟩
  have hproj : ∃ r ∈ g.rules, (e.name ++ ".xise") ∈ r.targets :=
    ⟨⟨["xtclsh", e.name ++ ".tcl"], [e.name ++ ".xise"], (e.name ++ ".tcl") :: efs⟩,
     by rw [hg]; simp [iseRules, hs], by simp⟩
  have hdeps : ∀ r ∈ g.rules, ∀ y ∈ r.dependencies, resolvesIn g e y := by
    intro r hr y hy
    rw [hg] at hr
    simp only [iseRules, hs, if_true, eq_self_iff_true, List.cons_append,
      List.nil_append, List.mem_cons, List.not_mem_nil, or_false] at hr
    rcases hr with rfl | rfl | rfl | rfl | rfl | rfl
    · simp only [List.mem_cons] at hy
      rcases hy with rfl | hy
      · exact Or.inr (Or.inl (by simp [writtenFiles]))
      · exact Or.inr (Or.inr (hefs y hy))
    · simp only [List.mem_cons, List.not_mem_nil, or_false] at hy
      rcases hy with rfl | rfl
      · exact Or.inr (Or.inl (by simp [writtenFiles]))
      · exact Or.inl hproj
    · simp only [List.mem_cons, List.not_mem_nil, or_false] at hy
      rcases hy with rfl
      exact Or.inl ⟨⟨["xtclsh", e.name ++ "_synth.tcl", e.name ++ ".xise"],
        [e.name ++ "/__synthesis_is_complete__"],
        [e.name ++ "_synth.tcl", e.name ++ ".xise"]⟩,
        by rw [hg]; simp [iseRules, hs], by simp⟩
    · simp only [List.mem_cons, List.not_mem_nil, or_false] at hy
      rcases hy with rfl | rfl
      · exact Or.inr (Or.inl (by simp [writtenFiles]))
      · exact Or.inl hproj
    · simp only [List.mem_cons, List.not_mem_nil, or_false] at hy
      rcases hy with rfl
      exact Or.inl hproj
    · simp only [List.mem_cons, List.not_mem_nil, or_false] at hy
      rcases hy with rfl | rfl
      · exact Or.inr (Or.inl (by simp [writtenFiles]))
      · exact Or.inl ⟨⟨["xtclsh", e.name ++ "_run.tcl", e.name ++ ".xise"],
          [e.name ++ ".bit"], [e.name ++ "_run.tcl", e.name ++ ".xise"]⟩,
          by rw [hg]; simp [iseRules, hs], by simp⟩
  intro x hx
  induction hx with
  | base t ht =>
    rw [hg] at ht
    simp only [Option.some.injEq] at ht
    subst ht
    exact Or.inl ⟨⟨["xtclsh", e.name ++ "_run.tcl", e.name ++ ".xise"],
      [e.name ++ ".bit"], [e.name ++ "_run.tcl", e.name ++ ".xise"]⟩,
      by rw [hg]; simp [iseRules, hs], by simp⟩
  | step x y r hx hr hxt hyd ih => exact hdeps r hr y hyd

/-- Witness for C4: at a concrete edam, the project file reached from
the default target through the bitstream rule resolves. -/
theorem no_dangling_C4_witness :
    resolvesIn ⟨iseRules "top" ["t.edif"] "ise" "", some ("top" ++ ".bit"), true⟩
      eEdif ("top" ++ ".xise") :=
  no_dangling_C4 eEdif
    ⟨iseRules "top" ["t.edif"] "ise" "", some ("top" ++ ".bit"), true⟩
    (writtenFiles "top") (Or.inl rfl) rfl ("top" ++ ".xise")
    (Reachable.step ("top" ++ ".bit") ("top" ++ ".xise")
      ⟨["xtclsh", "top" ++ "_run.tcl", "top" ++ ".xise"], ["top" ++ ".bit"],
        ["top" ++ "_run.tcl", "top" ++ ".xise"]⟩
      (Reachable.base _ rfl) (by decide) (by decide) (by decide))

/-- Inversion for a successful `add`: the graph was open, the conflict
check passed, and the rule was appended unless already present. -/
theorem add_ok_inv (g g1 : EdaCommands) (c t d : List String)
    (h : g.add c t d = .ok g1) :
    g.finalized = false ∧ checkConflicts g.rules c d t = none ∧
      ((⟨c, t, d⟩ : Rule) ∈ g.rules ∧ g1 = g ∨
       (⟨c, t, d⟩ : Rule) ∉ g.rules ∧
         g1 = { g with rules := g.rules ++ [⟨c, t, d⟩] }) := by
  unfold EdaCommands.add at h
  split at h
  · exact absurd h (by simp)
  next hf =>
    split at h
    · exact absurd h (by simp)
    next hcc =>
      refine ⟨by simpa using hf, hcc, ?_⟩
      split at h
      next hm => exact Or.inl ⟨hm, (Except.ok.inj h).symm⟩
      next hm => exact Or.inr ⟨hm, (Except.ok.inj h).symm⟩

/-- When the conflict check passes, every new target that finds an
existing rule finds one with the same command and dependencies. -/
theorem checkConflicts_none_inv (rules : List Rule) (c d : List String)
    (ts : List String) (h : checkConflicts rules c d ts = none) :
    ∀ x ∈ ts, ∀ r, findTargetRule rules x = some r →
      r.command = c ∧ r.dependencies = d := by
  induction ts with
  | nil => intro x hx; exact absurd hx (List.not_mem_nil x)
  | cons t ts ih =>
    intro x hx r hr
    simp only [checkConflicts] at h
    split at h
    next r0 hft =>
      split at h
      next hcd =>
        rcases List.mem_cons.mp hx with rfl | hx'
        · rw [hft] at hr; injection hr with hr0; subst hr0; exact hcd
        · exact ih h x hx' r hr
      next hcd => cases h
    next hft =>
      rcases List.mem_cons.mp hx with rfl | hx'
      · rw [hft] at hr; cases hr
      · exact ih h x hx' r hr

/-- A rule found by `findTargetRule` is a member and contains the
target. -/
theorem findTargetRule_some_inv (rules : List Rule) (x : String) (r : Rule)
    (h : findTargetRule rules x = some r) : r ∈ rules ∧ x ∈ r.targets := by
  induction rules with
  | nil => cases h
  | cons r0 rs ih =>
    simp only [findTargetRule] at h
    by_cases hx : x ∈ r0.targets
    · rw [if_pos hx] at h
      injection h with h0
      subst h0
      exact ⟨List.mem_cons_self _ _, hx⟩
    · rw [if_neg hx] at h
      obtain ⟨h1, h2⟩ := ih h
      exact ⟨List.mem_cons_of_mem _ h1, h2⟩

/-- If some rule of the list contains the target, `findTargetRule`
finds one. -/
theorem findTargetRule_isSome (rules : List Rule) (x : String) (r : Rule)
    (hr : r ∈ rules) (hx : x ∈ r.targets) :
    ∃ r0, findTargetRule rules x = some r0 := by
  induction rules with
  | nil => cases hr
  | cons r1 rs ih =>
    simp only [findTargetRule]
    by_cases h1 : x ∈ r1.targets
    · exact ⟨r1, if_pos h1⟩
    · rcases List.mem_cons.mp hr with rfl | hr'
      · exact absurd hx h1
      · obtain ⟨r0, h0⟩ := ih hr'
        exact ⟨r0, by rw [if_neg h1]; exact h0⟩

/-- Append law for `findTargetRule`: the first existing rule wins, the
appended rule is consulted last. -/
theorem findTargetRule_append (rules : List Rule) (r1 : Rule) (x : String) :
    findTargetRule (rules ++ [r1]) x =
      match findTargetRule rules x with
      | some r => some r
      | none => if x ∈ r1.targets then some r1 else none := by
  induction rules with
  | nil => simp [findTargetRule]
  | cons r0 rs ih =>
    simp only [List.cons_append, findTargetRule]
    by_cases h0 : x ∈ r0.targets
    · simp [if_pos h0]
    · simp [if_neg h0, ih]

/-- If some new target finds a rule with differing command or
dependencies, the conflict check reports a conflicting target. -/
theorem checkConflicts_some_of (rules : List Rule) (c d : List String)
    (ts : List String) (x : String) (hx : x ∈ ts) (r : Rule)
    (hr : findTargetRule rules x = some r)
    (hcd : ¬(r.command = c ∧ r.dependencies = d)) :
    ∃ y ∈ ts, checkConflicts rules c d ts = some y ∧
      ∃ r0, findTargetRule rules y = some r0 := by
  induction ts with
  | nil => cases hx
  | cons t ts ih =>
    simp only [checkConflicts]
    rcases List.mem_cons.mp hx with rfl | hx'
    · simp only [hr, if_neg hcd]
      exact ⟨x, List.mem_cons_self _ _, rfl, r, hr⟩
    · cases hft : findTargetRule rules t with
      | none =>
        simp only [hft]
        obtain ⟨y, hy, hc2, hfy⟩ := ih hx'
        exact ⟨y, List.mem_cons_of_mem _ hy, hc2, hfy⟩
      | some r0 =>
        simp only [hft]
        by_cases hcd0 : r0.command = c ∧ r0.dependencies = d
        · rw [if_pos hcd0]
          obtain ⟨y, hy, hc2, hfy⟩ := ih hx'
          exact ⟨y, List.mem_cons_of_mem _ hy, hc2, hfy⟩
        · rw [if_neg hcd0]
          exact ⟨t, List.mem_cons_self _ _, rfl, r0, hft⟩

/-- If every new target that finds an existing rule finds a matching
one, the conflict check passes. -/
theorem checkConflicts_none_of (rules : List Rule) (c d : List String)
    (ts : List String)
    (h : ∀ t ∈ ts, ∀ r, findTargetRule rules t = some r →
      r.command = c ∧ r.dependencies = d) :
    checkConflicts rules c d ts = none := by
  induction ts with
  | nil => rfl
  | cons t ts ih =>
    simp only [checkConflicts]
    cases hft : findTargetRule rules t with
    | none =>
      simp only [hft]
      exact ih (fun t' ht' => h t' (List.mem_cons_of_mem _ ht'))
    | some r0 =>
      simp only [hft]
      rw [if_pos (h t (List.mem_cons_self _ _) r0 hft)]
      exact ih (fun t' ht' => h t' (List.mem_cons_of_mem _ ht'))

/-- C6: conflicting-rule rejection on add — after a successful add of
`(c1, t1, d1)`, adding a rule whose target set overlaps `t1` but whose
command or dependencies differ fails with `ConflictingRule` naming a
duplicated target, while re-adding the identical triple succeeds and
leaves the graph unchanged. -/
theorem conflicting_rule_C6 (g g1 : EdaCommands)
    (c1 t1 d1 c2 t2 d2 : List String)
    (h1 : g.add c1 t1 d1 = .ok g1) (x : String) (hx1 : x ∈ t1) (hx2 : x ∈ t2)
    (hdiff : ¬(c1 = c2 ∧ d1 = d2)) :
    (∃ y ∈ t2, g1.add c2 t2 d2 = .error (.conflictingRule y) ∧
      ∃ r ∈ g1.rules, y ∈ r.targets) ∧
    g1.add c1 t1 d1 = .ok g1 := by
  obtain ⟨hfin, hcc, hcase⟩ := add_ok_inv g g1 c1 t1 d1 h1
  have hfin1 : g1.finalized = false := by
    rcases hcase with ⟨-, rfl⟩ | ⟨-, rfl⟩ <;> simpa using hfin
  have hr1 : (⟨c1, t1, d1⟩ : Rule) ∈ g1.rules := by
    rcases hcase with ⟨hm, rfl⟩ | ⟨-, rfl⟩
    · exact hm
    · simp
  have hfind : ∀ t ∈ t1, ∃ r, findTargetRule g1.rules t = some r ∧
      r.command = c1 ∧ r.dependencies = d1 := by
    intro t ht
    rcases hcase with ⟨hm, heq⟩ | ⟨hm, heq⟩
    · rw [heq]
      obtain ⟨r0, h0⟩ := findTargetRule_isSome g.rules t ⟨c1, t1, d1⟩ hm ht
      exact ⟨r0, h0, checkConflicts_none_inv g.rules c1 d1 t1 hcc t ht r0 h0⟩
    · rw [heq]
      have hmm := findTargetRule_append g.rules ⟨c1, t1, d1⟩ t
      cases hft : findTargetRule g.rules t with
      | some r0 =>
        rw [hft] at hmm
        simp only [] at hmm
        exact ⟨r0, hmm,
          checkConflicts_none_inv g.rules c1 d1 t1 hcc t ht r0 hft⟩
      | none =>
        rw [hft] at hmm
        simp only [ht, if_true] at hmm
        exact ⟨⟨c1, t1, d1⟩, hmm, rfl, rfl⟩
  obtain ⟨r, hfr, hrc, hrd⟩ := hfind x hx1
  have hconf : ¬(r.command = c2 ∧ r.dependencies = d2) := by
    rw [hrc, hrd]; exact hdiff
  obtain ⟨y, hy, hcy, r0, hfy⟩ :=
    checkConflicts_some_of g1.rules c2 d2 t2 x hx2 r hfr hconf
  constructor
  · refine ⟨y, hy, ?_, ?_⟩
    · simp [EdaCommands.add, hfin1, hcy]
    · obtain ⟨hmem, hxt⟩ := findTargetRule_some_inv g1.rules y r0 hfy
      exact ⟨r0, hmem, hxt⟩
  · have hccn : checkConflicts g1.rules c1 d1 t1 = none := by
      refine checkConflicts_none_of g1.rules c1 d1 t1 ?_
      intro t ht r' hfr'
      obtain ⟨r'', hfr'', hc'', hd''⟩ := hfind t ht
      rw [hfr'] at hfr''
      injection hfr'' with he
      subst he
      exact ⟨hc'', hd''⟩
    simp [EdaCommands.add, hfin1, hccn, hr1]

/-- Witness for C6 at a concrete graph and two concrete conflicting
rules. -/
theorem conflicting_rule_C6_witness :
    (∃ y ∈ ["t"],
      EdaCommands.add ⟨[⟨["c1"], ["t"], []⟩], none, false⟩ ["c2"] ["t"] [] =
        .error (.conflictingRule y) ∧
      ∃ r ∈ (⟨[⟨["c1"], ["t"], []⟩], none, false⟩ : EdaCommands).rules,
        y ∈ r.targets) ∧
    EdaCommands.add ⟨[⟨["c1"], ["t"], []⟩], none, false⟩ ["c1"] ["t"] [] =
      .ok ⟨[⟨["c1"], ["t"], []⟩], none, false⟩ :=
  conflicting_rule_C6 emptyCommands ⟨[⟨["c1"], ["t"], []⟩], none, false⟩
    ["c1"] ["t"] [] ["c2"] ["t"] [] rfl "t" (by decide) (by decide) (by decide)

/-- Two candidate prefixes that are not prefixes of one another cannot
both be prefixes of the same string. -/
theorem pyStartswith_excl (s p q : String)
    (hp : pyStartswith s p = true) (hnpq : ¬ p.data <+: q.data)
    (hnqp : ¬ q.data <+: p.data) : pyStartswith s q = false := by
  refine Bool.eq_false_iff.mpr ?_
  intro hq
  rw [pyStartswith, List.isPrefixOf_iff_prefix] at hp hq
  rcases List.prefix_or_prefix_of_prefix hp hq with h | h
  · exact hnpq h
  · exact hnqp h

/-- The classification loop raises `NameError` on the first vhdlSource
file with a truthy logical_name, provided no systemVerilogSource file
precedes it. -/
theorem classify_nameError (pre post : List SourceFile) (f : SourceFile)
    (hf : pyStartswith f.file_type "vhdlSource" = true)
    (hl : f.logical_name ≠ "")
    (hpre : ∀ f' ∈ pre, pyStartswith f'.file_type "systemVerilogSource" = false) :
    classifyFiles (pre ++ f :: post) = .error (.nameError "libraries") := by
  revert hpre
  induction pre with
  | nil =>
    intro _
    have hv : pyStartswith f.file_type "verilogSource" = false :=
      pyStartswith_excl _ _ _ hf (by decide) (by decide)
    have hsv : pyStartswith f.file_type "systemVerilogSource" = false :=
      pyStartswith_excl _ _ _ hf (by decide) (by decide)
    simp [classifyFiles, hv, hsv, hf, hl]
  | cons f' pre ih =>
    intro hpre
    have hsv' : pyStartswith f'.file_type "systemVerilogSource" = false :=
      hpre f' (List.mem_cons_self _ _)
    have hrec := ih (fun x hx => hpre x (List.mem_cons_of_mem _ hx))
    by_cases h1 : pyStartswith f'.file_type "verilogSource"
    · simp [classifyFiles, h1, hrec]
    · by_cases h3 : pyStartswith f'.file_type "vhdlSource"
      · by_cases h4 : f'.logical_name = ""
        · simp [classifyFiles, h1, hsv', h3, h4, hrec]
        · simp [classifyFiles, h1, hsv', h3, h4]
      · by_cases h5 : f'.file_type = "edif"
        · have e1 : pyStartswith "edif" "verilogSource" = false := by decide
          have e2 : pyStartswith "edif" "systemVerilogSource" = false := by decide
          have e3 : pyStartswith "edif" "vhdlSource" = false := by decide
          simp [classifyFiles, h5, e1, e2, e3, hrec, Except.map]
        · simp [classifyFiles, h1, hsv', h3, h5, hrec]

/-- The classification loop raises `RuntimeError` on the first
systemVerilogSource file, provided no vhdlSource file with a truthy
logical_name precedes it. -/
theorem classify_runtimeError (pre post : List SourceFile) (f : SourceFile)
    (hf : pyStartswith f.file_type "systemVerilogSource" = true)
    (hpre : ∀ f' ∈ pre,
      ¬(pyStartswith f'.file_type "vhdlSource" = true ∧ f'.logical_name ≠ "")) :
    classifyFiles (pre ++ f :: post) =
      .error (.runtimeError "ISE cannot synthesis systemverilog. Please use synth=yosys") := by
  revert hpre
  induction pre with
  | nil =>
    intro _
    have hv : pyStartswith f.file_type "verilogSource" = false :=
      pyStartswith_excl _ _ _ hf (by decide) (by decide)
    simp [classifyFiles, hv, hf]
  | cons f' pre ih =>
    intro hpre
    have hrec := ih (fun x hx => hpre x (List.mem_cons_of_mem _ hx))
    by_cases h1 : pyStartswith f'.file_type "verilogSource"
    · simp [classifyFiles, h1, hrec]
    · by_cases h2 : pyStartswith f'.file_type "systemVerilogSource"
      · simp [classifyFiles, h1, h2]
      · by_cases h3 : pyStartswith f'.file_type "vhdlSource"
        · have h4 : f'.logical_name = "" := by
            by_contra h4
            exact hpre f' (List.mem_cons_self _ _) ⟨h3, h4⟩
          simp [classifyFiles, h1, h2, h3, h4, hrec]
        · by_cases h5 : f'.file_type = "edif"
          · have e1 : pyStartswith "edif" "verilogSource" = false := by decide
            have e2 : pyStartswith "edif" "systemVerilogSource" = false := by decide
            have e3 : pyStartswith "edif" "vhdlSource" = false := by decide
            simp [classifyFiles, h5, e1, e2, e3, hrec, Except.map]
          · simp [classifyFiles, h1, h2, h3, h5, hrec]

/-- Counterexample for C8 as stated: this edam's file list contains a
vhdlSource file with a truthy logical_name, yet `configure` raises
RuntimeError — not NameError — because a systemVerilogSource file
precedes it in the list. -/
theorem vhdl_library_nameError_C8_counterexample :
    (∃ f ∈ eSvFirst.files,
       pyStartswith f.file_type "vhdlSource" = true ∧ f.logical_name ≠ "") ∧
    iseConfigure eSvFirst =
      .error (.runtimeError "ISE cannot synthesis systemverilog. Please use synth=yosys") ∧
    iseConfigure eSvFirst ≠ .error (.nameError "libraries") := by
  refine ⟨⟨⟨"vhdlSource", "v.vhd", "mylib"⟩, by decide, by decide, by decide⟩,
    rfl, ?_⟩
  intro h
  exact absurd (Except.error.inj h) (by decide)

/-- C8 (amended): for every edam whose file list contains a file with
file_type beginning with "vhdlSource" and a truthy logical_name, with
no systemVerilogSource file preceding it, `configure` raises NameError
on the unbound name `libraries`. -/
theorem vhdl_library_nameError_C8 (e : Edam) (pre post : List SourceFile)
    (f : SourceFile) (hsplit : e.files = pre ++ f :: post)
    (hf : pyStartswith f.file_type "vhdlSource" = true)
    (hl : f.logical_name ≠ "")
    (hpre : ∀ f' ∈ pre, pyStartswith f'.file_type "systemVerilogSource" = false) :
    iseConfigure e = .error (.nameError "libraries") := by
  have hclass := classify_nameError pre post f hf hl hpre
  rw [← hsplit] at hclass
  simp [iseConfigure, hclass]

/-- Witness for C8 (amended) at a concrete edam. -/
theorem vhdl_library_nameError_C8_witness :
    iseConfigure eVhdlFirst = .error (.nameError "libraries") :=
  vhdl_library_nameError_C8 eVhdlFirst [] [⟨"systemVerilogSource", "s.sv", ""⟩]
    ⟨"vhdlSource", "v.vhd", "mylib"⟩ rfl (by decide) (by decide)
    (fun f' hf' => absurd hf' (List.not_mem_nil f'))

/-- Counterexample for C9 as stated: this edam's file list contains a
systemVerilogSource file, yet `configure` raises NameError — not
RuntimeError — because a vhdlSource file with a truthy logical_name
precedes it in the list. -/
theorem systemverilog_runtimeError_C9_counterexample :
    (∃ f ∈ eVhdlFirst.files,
       pyStartswith f.file_type "systemVerilogSource" = true) ∧
    iseConfigure eVhdlFirst = .error (.nameError "libraries") ∧
    iseConfigure eVhdlFirst ≠
      .error (.runtimeError "ISE cannot synthesis systemverilog. Please use synth=yosys") := by
  refine ⟨⟨⟨"systemVerilogSource", "s.sv", ""⟩, by decide, by decide⟩, rfl, ?_⟩
  intro h
  exact absurd (Except.error.inj h) (by decide)

/-- C9 (amended): for every edam whose file list contains a
systemVerilogSource file with no vhdlSource-with-logical_name file
preceding it, `configure` raises RuntimeError — regardless of the
`synth` option's value — and returns no written files (all rendering
happens after the classification loop). -/
theorem systemverilog_runtimeError_C9 (e : Edam) (pre post : List SourceFile)
    (f : SourceFile) (hsplit : e.files = pre ++ f :: post)
    (hf : pyStartswith f.file_type "systemVerilogSource" = true)
    (hpre : ∀ f' ∈ pre,
      ¬(pyStartswith f'.file_type "vhdlSource" = true ∧ f'.logical_name ≠ "")) :
    iseConfigure e =
      .error (.runtimeError "ISE cannot synthesis systemverilog. Please use synth=yosys") := by
  have hclass := classify_runtimeError pre post f hf hpre
  rw [← hsplit] at hclass
  simp [iseConfigure, hclass]

/-- Witness for C9 (amended) at a concrete edam. -/
theorem systemverilog_runtimeError_C9_witness :
    iseConfigure eSvFirst =
      .error (.runtimeError "ISE cannot synthesis systemverilog. Please use synth=yosys") :=
  systemverilog_runtimeError_C9 eSvFirst [] [⟨"vhdlSource", "v.vhd", "mylib"⟩]
    ⟨"systemVerilogSource", "s.sv", ""⟩ rfl (by decide)
    (fun f' hf' => absurd hf' (List.not_mem_nil f'))

/-- C10: `build` ignores the `pnr` option — for every value of the
tool options, `Ise.build` returns `("make", self.args, self.work_root)`;
selecting `pnr = "none"` only fills the dead local `args` with
`["synth"]` and does not change the returned build command. -/
theorem build_ignores_pnr_C10 (pnr pnr' : Option String)
    (self_args : List String) (work_root : String) :
    iseBuild pnr self_args work_root = ("make", self_args, work_root) ∧
    iseBuild (some "none") self_args work_root = iseBuild pnr' self_args work_root ∧
    buildLocalArgs (some "none") = ["synth"] := by
  exact ⟨rfl, rfl, rfl⟩

end EdalizeIse
